import Mathlib

/-!
Shallow embedding of the Bitcoin price detector (src/server.py and
src/crypto_utils.py) and verification of its specification claims.

Prices and averages are modelled as exact rationals (ℚ); Python `None`
becomes `Option.none`; the global mutable `last_signal` becomes explicit
state passing; the `deque(maxlen=...)` buffers become `boundedAppend`.
The sklearn IsolationForest inside `is_anomalous` is third-party code, not
part of this repository: it is abstracted as a classifier parameter
`clf : List ℚ → Bool` (the fit-on-prefix / predict-last step), so every
theorem below holds for any classifier behaviour.
-/

namespace BitcoinPriceDetector

abbrev Price := ℚ

/-- `PRICE_WINDOW = 200` (src/server.py line 20). -/
def PRICE_WINDOW : ℕ := 200

/-- One `append` on a Python `deque(maxlen := N)` (src/server.py lines 44-45):
if the buffer is below capacity the sample is appended, otherwise the oldest
sample is evicted from the front and the new sample appended. -/
def boundedAppend (N : ℕ) (buf : List Price) (x : Price) : List Price :=
  if buf.length < N then buf ++ [x] else buf.drop 1 ++ [x]

/-- Outcome of the HTTP request inside `fetch_price` (src/server.py lines 48-57):
either some step before `float(...)` raised (transport error, timeout,
`raise_for_status`, `r.json()` failure) — modelled as `failure` — or a
successful response whose `data["price"]` field `float(...)` either fails to
parse (`response none`) or parses to the rational `q` (`response (some q)`). -/
inductive FetchOutcome where
  | failure : FetchOutcome
  | response : Option ℚ → FetchOutcome

/-- `fetch_price` (src/server.py lines 48-57) as a function of the request
outcome: every exception path is caught and returns `None`; a successfully
parsed price is returned unvalidated. -/
def fetch_price : FetchOutcome → Option ℚ
  | .failure => none
  | .response none => none
  | .response (some p) => some p

/-- Python negative slicing `l[-k:]`: the trailing `k` elements (all of them
when fewer than `k` are available). -/
def lastN (k : ℕ) (l : List ℚ) : List ℚ := l.drop (l.length - k)

/-- `pd.Series(s).rolling(window := k).mean().iloc[-1]` (src/server.py
lines 64-65): `NaN` (here `none`) when fewer than `k` samples exist,
otherwise the mean of the trailing `k` samples. -/
def rollingMeanLast (k : ℕ) (s : List ℚ) : Option ℚ :=
  if s.length < k then none else some ((lastN k s).sum / (k : ℚ))

/-- `compute_moving_averages` (src/server.py lines 60-66). -/
def compute_moving_averages (series : List ℚ) (short : ℕ) (long : ℕ) :
    Option ℚ × Option ℚ :=
  if series.length < long then (none, none)
  else (rollingMeanLast short series, rollingMeanLast long series)

/-- `np.diff(arr) / arr[:-1]` (src/server.py line 87): the simple returns
`(p_{i+1} - p_i) / p_i`. -/
def returnsOf : List ℚ → List ℚ
  | [] => []
  | [_] => []
  | a :: b :: rest => (b - a) / a :: returnsOf (b :: rest)

/-- `is_anomalous` (src/server.py lines 68-76): below 30 samples it returns
`False`; otherwise the IsolationForest (third-party code, abstracted as
`clf`) is fit on `X[:-1]` and classifies `X[-1]`. -/
def is_anomalous (clf : List ℚ → Bool) (returns_window : List ℚ) : Bool :=
  if returns_window.length < 30 then false else clf returns_window

/-- The risky tag appended at src/server.py line 99. -/
def RISKY_TAG : String := " (RISKY - anomaly)"

/-- `signal.split()[0]` (src/server.py line 102): the first
whitespace-separated word of the signal string (the signal strings produced
by `evaluate_signals` never start with a space). -/
def bareDirection (s : String) : String := String.mk (s.toList.takeWhile (· ≠ ' '))

/-- The dict returned by `evaluate_signals` (src/server.py lines 103-108). -/
structure EvalResult where
  signal : Option String
  ma_short : Option ℚ
  ma_long : Option ℚ
  anomalous : Bool
deriving DecidableEq, Repr

/-- `last_signal = None` (src/server.py line 78). -/
def initial_last_signal : Option String := none

/-- The crossover-with-suppression rule (src/server.py lines 90-95). -/
def candidateSignal (ma_short ma_long : Option ℚ) (last_signal : Option String) :
    Option String :=
  match ma_short, ma_long with
  | some s, some l =>
      if s > l ∧ last_signal ≠ some "BUY" then some "BUY"
      else if s < l ∧ last_signal ≠ some "SELL" then some "SELL"
      else none
  | _, _ => none

/-- The risky-tag step (src/server.py lines 97-99). -/
def taggedSignal (signal0 : Option String) (anomalous : Bool) : Option String :=
  match signal0 with
  | some s => some (if anomalous then s ++ RISKY_TAG else s)
  | none => none

/-- `is_anomalous(returns[-50:]) if len(returns) >= 50 else False`
(src/server.py line 88). -/
def anomalousOf (clf : List ℚ → Bool) (returns : List ℚ) : Bool :=
  if 50 ≤ returns.length then is_anomalous clf (lastN 50 returns) else false

/-- The `last_signal` update (src/server.py lines 101-102): when a signal
string was produced (always non-empty, hence truthy), `last_signal` becomes
its first word; otherwise it is left unchanged. -/
def nextLast (signal : Option String) (last_signal : Option String) : Option String :=
  match signal with
  | some s => some (bareDirection s)
  | none => last_signal

/-- `evaluate_signals` (src/server.py lines 80-108) with the global
`last_signal` threaded explicitly: returns the Python result (`none` for the
early `return None` at line 83) together with the new `last_signal`. -/
def evaluate_signals (clf : List ℚ → Bool) (prices : List ℚ)
    (last_signal : Option String) : Option EvalResult × Option String :=
  if prices.length < 21 then (none, last_signal)
  else
    let mas := compute_moving_averages prices 5 20
    let anomalous := anomalousOf clf (returnsOf prices)
    let signal := taggedSignal (candidateSignal mas.1 mas.2 last_signal) anomalous
    (some ⟨signal, mas.1, mas.2, anomalous⟩, nextLast signal last_signal)

/-- The payload built in `background_price_poller` (src/server.py
lines 120-127). -/
structure Payload where
  price : ℚ
  timestamp : ℚ
  signal : Option String
  ma_short : Option ℚ
  ma_long : Option ℚ
  anomalous : Option Bool
deriving DecidableEq, Repr

/-- `payload = {...}` (src/server.py lines 120-127): each field falls back to
`None` when `info` is `None`. -/
def payloadOf (price ts : ℚ) (info : Option EvalResult) : Payload :=
  { price := price
    timestamp := ts
    signal := match info with | some i => i.signal | none => none
    ma_short := match info with | some i => i.ma_short | none => none
    ma_long := match info with | some i => i.ma_long | none => none
    anomalous := match info with | some i => some i.anomalous | none => none }

/-- The mutable state touched by the poller loop: the two bounded deques
(src/server.py lines 44-45) and `last_signal` (line 78). -/
structure PollerState where
  prices : List ℚ
  timestamps : List ℚ
  last_signal : Option String
deriving DecidableEq, Repr

/-- One iteration of `background_price_poller` (src/server.py lines 111-133)
as a function of the fetched price and the tick's wall-clock time: on a
`None` fetch nothing is appended, evaluated, or emitted; otherwise both
deques are appended to, signals are evaluated, and the payload is emitted. -/
def tick (clf : List ℚ → Bool) (s : PollerState) (fetched : Option ℚ) (ts : ℚ) :
    PollerState × Option Payload :=
  match fetched with
  | none => (s, none)
  | some price =>
      let prices' := boundedAppend PRICE_WINDOW s.prices price
      let timestamps' := boundedAppend PRICE_WINDOW s.timestamps ts
      let r := evaluate_signals clf prices' s.last_signal
      (⟨prices', timestamps', r.2⟩, some (payloadOf price ts r.1))

/-- A run of consecutive poller iterations over a list of (fetch outcome,
timestamp) pairs, collecting every emitted payload in order. -/
def ticks (clf : List ℚ → Bool) : PollerState → List (Option ℚ × ℚ) →
    PollerState × List Payload
  | s, [] => (s, [])
  | s, (f, ts) :: rest =>
      let r := tick clf s f ts
      let r2 := ticks clf r.1 rest
      (r2.1, r.2.toList ++ r2.2)

/-! ### Derived views and concrete inputs used by the theorems below -/

/-- The trailing 5-sample moving average (`ma_short` for the default
`short = 5` window) as a total function, for stating theorems. -/
def shortAvg (ps : List ℚ) : ℚ := (lastN 5 ps).sum / (5 : ℚ)

/-- The trailing 20-sample moving average (`ma_long` for the default
`long = 20` window) as a total function, for stating theorems. -/
def longAvg (ps : List ℚ) : ℚ := (lastN 20 ps).sum / (20 : ℚ)

/-- The `signal` field of an evaluation outcome (`None` when
`evaluate_signals` returned `None` outright). -/
def emittedSignal : Option EvalResult → Option String
  | none => none
  | some i => i.signal

/-- The direction word of the emitted signal, risky tag stripped. -/
def emittedDirection (r : Option EvalResult) : Option String :=
  (emittedSignal r).map bareDirection

/-- The values the spec allows for `SignalState`: `none`, `"BUY"`, `"SELL"`. -/
def ValidSignalState (st : Option String) : Prop :=
  st = none ∨ st = some "BUY" ∨ st = some "SELL"

/-- A classifier that never reports an outlier (one possible IsolationForest
behaviour), used to instantiate statements on concrete inputs. -/
def clf0 : List ℚ → Bool := fun _ => false

/-- A classifier that always reports an outlier, used to exercise the risky
branch on concrete inputs. -/
def clfT : List ℚ → Bool := fun _ => true

/-- A 3-sample price history (below the 21-sample threshold). -/
def ps3 : List ℚ := [100, 101, 102]

/-- A strictly increasing 21-sample price history. -/
def ps21 : List ℚ :=
  [1, 2, 3, 4, 5, 6, 7, 8, 9, 10, 11, 12, 13, 14, 15, 16, 17, 18, 19, 20, 21]

/-- A strictly increasing 51-sample price history (50 returns, enough for
the anomaly window). -/
def ps51 : List ℚ :=
  [1, 2, 3, 4, 5, 6, 7, 8, 9, 10, 11, 12, 13, 14, 15, 16, 17, 18, 19, 20, 21,
   22, 23, 24, 25, 26, 27, 28, 29, 30, 31, 32, 33, 34, 35, 36, 37, 38, 39, 40,
   41, 42, 43, 44, 45, 46, 47, 48, 49, 50, 51]

/-! ### Helper lemmas -/

lemma compute_mas_of_ge (ps : List ℚ) (h : 21 ≤ ps.length) :
    compute_moving_averages ps 5 20 = (some (shortAvg ps), some (longAvg ps)) := by
  unfold compute_moving_averages rollingMeanLast shortAvg longAvg
  rw [if_neg (by omega), if_neg (by omega), if_neg (by omega)]
  norm_num

lemma evaluate_signals_of_ge (clf : List ℚ → Bool) (ps : List ℚ)
    (st : Option String) (h : 21 ≤ ps.length) :
    evaluate_signals clf ps st =
      (some ⟨taggedSignal (candidateSignal (some (shortAvg ps)) (some (longAvg ps)) st)
          (anomalousOf clf (returnsOf ps)),
        some (shortAvg ps), some (longAvg ps), anomalousOf clf (returnsOf ps)⟩,
       nextLast
        (taggedSignal (candidateSignal (some (shortAvg ps)) (some (longAvg ps)) st)
          (anomalousOf clf (returnsOf ps))) st) := by
  unfold evaluate_signals
  rw [if_neg (by omega), compute_mas_of_ge ps h]

lemma evaluate_signals_of_lt (clf : List ℚ → Bool) (ps : List ℚ)
    (st : Option String) (h : ps.length < 21) :
    evaluate_signals clf ps st = (none, st) := by
  unfold evaluate_signals
  rw [if_pos h]

lemma candidateSignal_eq_buy (s l : ℚ) (st : Option String) :
    candidateSignal (some s) (some l) st = some "BUY" ↔ l < s ∧ st ≠ some "BUY" := by
  simp only [candidateSignal]
  split_ifs with h1 h2 <;> simp_all [gt_iff_lt]

lemma candidateSignal_eq_sell (s l : ℚ) (st : Option String) :
    candidateSignal (some s) (some l) st = some "SELL" ↔ s < l ∧ st ≠ some "SELL" := by
  simp only [candidateSignal]
  split_ifs with h1 h2 <;> simp_all [gt_iff_lt]
  exact fun hlt => absurd hlt (lt_asymm h1.1)

lemma candidateSignal_eq_none (s l : ℚ) (st : Option String) :
    candidateSignal (some s) (some l) st = none ↔
      ¬(l < s ∧ st ≠ some "BUY") ∧ ¬(s < l ∧ st ≠ some "SELL") := by
  simp only [candidateSignal]
  split_ifs with h1 h2 <;> simp_all [gt_iff_lt]

lemma candidateSignal_cases (s l : ℚ) (st : Option String) :
    candidateSignal (some s) (some l) st = some "BUY" ∨
    candidateSignal (some s) (some l) st = some "SELL" ∨
    candidateSignal (some s) (some l) st = none := by
  simp only [candidateSignal]
  split_ifs <;> simp

lemma bareDirection_buy (A : Bool) :
    bareDirection (if A then "BUY" ++ RISKY_TAG else "BUY") = "BUY" := by
  cases A <;> decide

lemma bareDirection_sell (A : Bool) :
    bareDirection (if A then "SELL" ++ RISKY_TAG else "SELL") = "SELL" := by
  cases A <;> decide

lemma bare_buy_plain : bareDirection "BUY" = "BUY" := by decide

lemma bare_sell_plain : bareDirection "SELL" = "SELL" := by decide

lemma bare_buy_tag : bareDirection ("BUY" ++ RISKY_TAG) = "BUY" := by decide

lemma bare_sell_tag : bareDirection ("SELL" ++ RISKY_TAG) = "SELL" := by decide

lemma taggedSignal_none (A : Bool) : taggedSignal none A = none := rfl

lemma taggedSignal_some (s : String) (A : Bool) :
    taggedSignal (some s) A = some (if A then s ++ RISKY_TAG else s) := rfl

lemma emittedDirection_tagged (s l : ℚ) (st : Option String) (A : Bool) :
    (taggedSignal (candidateSignal (some s) (some l) st) A).map bareDirection =
      candidateSignal (some s) (some l) st := by
  rcases candidateSignal_cases s l st with h | h | h <;>
    rw [h] <;> simp [taggedSignal_some, taggedSignal_none, bareDirection_buy,
      bareDirection_sell]

lemma boundedAppend_eq_drop (N : ℕ) (buf : List Price) (x : Price)
    (hN : 0 < N) (h : buf.length ≤ N) :
    boundedAppend N buf x = (buf ++ [x]).drop (buf.length + 1 - N) := by
  unfold boundedAppend
  split_ifs with hlt
  · have h0 : buf.length + 1 - N = 0 := by omega
    rw [h0, List.drop_zero]
  · have h1 : buf.length + 1 - N = 1 := by omega
    rw [h1, List.drop_append_of_le_length (by omega)]

lemma foldl_boundedAppend (N : ℕ) (hN : 0 < N) (xs : List Price) :
    ∀ buf : List Price, buf.length ≤ N →
      xs.foldl (boundedAppend N) buf = (buf ++ xs).drop (buf.length + xs.length - N) := by
  induction xs with
  | nil =>
      intro buf h
      simp [Nat.sub_eq_zero_of_le h]
  | cons x xs ih =>
      intro buf h
      have hlen : (boundedAppend N buf x).length ≤ N := by
        unfold boundedAppend
        split_ifs with hlt <;> simp <;> omega
      have hd : buf.length + 1 - N ≤ (buf ++ [x]).length := by
        simp only [List.length_append, List.length_singleton]
        omega
      have hA : boundedAppend N buf x = (buf ++ [x]).drop (buf.length + 1 - N) :=
        boundedAppend_eq_drop N buf x hN h
      have hAlen : (boundedAppend N buf x).length = buf.length + 1 - (buf.length + 1 - N) := by
        rw [hA, List.length_drop]
        simp
      have hcat : boundedAppend N buf x ++ xs =
          ((buf ++ [x]) ++ xs).drop (buf.length + 1 - N) := by
        rw [hA, List.drop_append_of_le_length hd]
      rw [List.foldl_cons, ih _ hlen, hAlen, hcat, List.drop_drop,
        List.append_assoc, List.singleton_append]
      congr 1
      simp only [List.length_cons]
      omega

/-! ### Claim theorems -/

/-- C4: for every sequence of appends to the `deque(maxlen := N)` rolling
buffer whose length exceeds the capacity `N` (default 200), the final length
is exactly `N` and the final contents are exactly the last `N` appended
samples in arrival order (the oldest evicted on each insert past capacity). -/
theorem rolling_series_fifo (N : ℕ) (xs : List Price) (hN : 0 < N)
    (h : N < xs.length) :
    (xs.foldl (boundedAppend N) []).length = N ∧
    xs.foldl (boundedAppend N) [] = xs.drop (xs.length - N) := by
  have he := foldl_boundedAppend N hN xs [] (by simp)
  simp only [List.nil_append, List.length_nil, Nat.zero_add] at he
  refine ⟨?_, he⟩
  rw [he, List.length_drop]
  omega

/-- Witness for C4 at capacity 2 and four appends. -/
theorem rolling_series_fifo_witness :
    (([10, 20, 30, 40] : List Price).foldl (boundedAppend 2) []).length = 2 ∧
    ([10, 20, 30, 40] : List Price).foldl (boundedAppend 2) [] =
      ([10, 20, 30, 40] : List Price).drop (([10, 20, 30, 40] : List Price).length - 2) :=
  rolling_series_fifo 2 [10, 20, 30, 40] (by decide) (by simp)

/-- C5: `is_anomalous` returns `False` for every returns window shorter than
30 samples, whatever the fitted classifier would say. -/
theorem anomaly_short_window_false (clf : List ℚ → Bool) (w : List ℚ)
    (h : w.length < 30) : is_anomalous clf w = false := by
  simp [is_anomalous, h]

/-- Witness for C5 on a 3-sample window. -/
theorem anomaly_short_window_false_witness :
    is_anomalous clfT [1, 2, 3] = false :=
  anomaly_short_window_false clfT [1, 2, 3] (by simp)

/-- C2: with fewer than 21 samples, `evaluate_signals` returns Python `None`
(leaving `last_signal` unchanged) and the broadcast payload built from it
carries `signal = None`, `ma_short = None`, `ma_long = None`; no error path
exists (the function is total). -/
theorem insufficient_history_no_signal (clf : List ℚ → Bool) (ps : List ℚ)
    (st : Option String) (p ts : ℚ) (h : ps.length < 21) :
    evaluate_signals clf ps st = (none, st) ∧
    (payloadOf p ts (evaluate_signals clf ps st).1).signal = none ∧
    (payloadOf p ts (evaluate_signals clf ps st).1).ma_short = none ∧
    (payloadOf p ts (evaluate_signals clf ps st).1).ma_long = none := by
  have he := evaluate_signals_of_lt clf ps st h
  refine ⟨he, ?_, ?_, ?_⟩ <;> rw [he] <;> rfl

/-- Witness for C2 on a 3-sample history. -/
theorem insufficient_history_no_signal_witness :
    evaluate_signals clf0 ps3 none = (none, none) ∧
    (payloadOf 100 0 (evaluate_signals clf0 ps3 none).1).signal = none ∧
    (payloadOf 100 0 (evaluate_signals clf0 ps3 none).1).ma_short = none ∧
    (payloadOf 100 0 (evaluate_signals clf0 ps3 none).1).ma_long = none :=
  insufficient_history_no_signal clf0 ps3 none 100 0 (by simp [ps3])

/-- C10: with at least 21 samples, `compute_moving_averages` returns both
averages as numbers, so the `None`-guard branch of `evaluate_signals` is
unreachable and the result carries numeric `ma_short` and `ma_long`. -/
theorem averages_defined_when_enough_history (clf : List ℚ → Bool)
    (ps : List ℚ) (st : Option String) (h : 21 ≤ ps.length) :
    compute_moving_averages ps 5 20 = (some (shortAvg ps), some (longAvg ps)) ∧
    ∃ i, (evaluate_signals clf ps st).1 = some i ∧
      i.ma_short = some (shortAvg ps) ∧ i.ma_long = some (longAvg ps) := by
  refine ⟨compute_mas_of_ge ps h, ?_⟩
  rw [evaluate_signals_of_ge clf ps st h]
  exact ⟨_, rfl, rfl, rfl⟩

/-- Witness for C10 on the 21-sample history. -/
theorem averages_defined_when_enough_history_witness :
    compute_moving_averages ps21 5 20 = (some (shortAvg ps21), some (longAvg ps21)) ∧
    ∃ i, (evaluate_signals clf0 ps21 none).1 = some i ∧
      i.ma_short = some (shortAvg ps21) ∧ i.ma_long = some (longAvg ps21) :=
  averages_defined_when_enough_history clf0 ps21 none (by simp [ps21])

/-- C1: with at least 21 samples, the direction of the emitted signal is
`BUY` exactly when the short average strictly exceeds the long average and
the last emitted state is not `BUY`; `SELL` exactly when the short average
is strictly below the long average and the last state is not `SELL`; and in
every other case (equality of the averages, or a repeat of the same
direction) no directional signal is emitted. -/
theorem crossover_rule (clf : List ℚ → Bool) (ps : List ℚ) (st : Option String)
    (h : 21 ≤ ps.length) :
    (emittedDirection (evaluate_signals clf ps st).1 = some "BUY" ↔
      longAvg ps < shortAvg ps ∧ st ≠ some "BUY") ∧
    (emittedDirection (evaluate_signals clf ps st).1 = some "SELL" ↔
      shortAvg ps < longAvg ps ∧ st ≠ some "SELL") ∧
    (emittedDirection (evaluate_signals clf ps st).1 = none ↔
      ¬(longAvg ps < shortAvg ps ∧ st ≠ some "BUY") ∧
      ¬(shortAvg ps < longAvg ps ∧ st ≠ some "SELL")) := by
  rw [evaluate_signals_of_ge clf ps st h]
  simp only [emittedDirection, emittedSignal]
  rw [emittedDirection_tagged]
  exact ⟨candidateSignal_eq_buy _ _ _, candidateSignal_eq_sell _ _ _,
    candidateSignal_eq_none _ _ _⟩

/-- Witness for C1 on the increasing 21-sample history from the initial
state. -/
theorem crossover_rule_witness :
    (emittedDirection (evaluate_signals clf0 ps21 none).1 = some "BUY" ↔
      longAvg ps21 < shortAvg ps21 ∧ (none : Option String) ≠ some "BUY") ∧
    (emittedDirection (evaluate_signals clf0 ps21 none).1 = some "SELL" ↔
      shortAvg ps21 < longAvg ps21 ∧ (none : Option String) ≠ some "SELL") ∧
    (emittedDirection (evaluate_signals clf0 ps21 none).1 = none ↔
      ¬(longAvg ps21 < shortAvg ps21 ∧ (none : Option String) ≠ some "BUY") ∧
      ¬(shortAvg ps21 < longAvg ps21 ∧ (none : Option String) ≠ some "SELL")) :=
  crossover_rule clf0 ps21 none (by simp [ps21])

/-- C7: `last_signal` starts as `None`; an evaluation leaves it unchanged
when no signal is emitted, and sets it to the bare direction (`"BUY"` or
`"SELL"`, risky tag stripped) when a signal is emitted — so after every
evaluation it is `none`, `"BUY"` or `"SELL"`. -/
theorem signal_state_lifecycle :
    initial_last_signal = none ∧
    ∀ (clf : List ℚ → Bool) (ps : List ℚ) (st : Option String),
      (emittedSignal (evaluate_signals clf ps st).1 = none →
        (evaluate_signals clf ps st).2 = st) ∧
      (∀ s, emittedSignal (evaluate_signals clf ps st).1 = some s →
        (evaluate_signals clf ps st).2 = some (bareDirection s) ∧
          (bareDirection s = "BUY" ∨ bareDirection s = "SELL")) ∧
      (ValidSignalState st → ValidSignalState (evaluate_signals clf ps st).2) := by
  refine ⟨rfl, fun clf ps st => ?_⟩
  by_cases h : ps.length < 21
  · rw [evaluate_signals_of_lt clf ps st h]
    exact ⟨fun _ => rfl, fun s hs => by simp [emittedSignal] at hs, fun hv => hv⟩
  · push_neg at h
    rw [evaluate_signals_of_ge clf ps st h]
    simp only [emittedSignal]
    rcases candidateSignal_cases (shortAvg ps) (longAvg ps) st with hc | hc | hc <;>
      rw [hc]
    · refine ⟨fun habs => by simp [taggedSignal_some] at habs, fun s hs => ?_, fun _ => ?_⟩
      · rw [taggedSignal_some] at hs
        obtain rfl := (Option.some.inj hs)
        rw [bareDirection_buy]
        exact ⟨by simp [taggedSignal_some, nextLast, bareDirection_buy], Or.inl rfl⟩
      · simp only [taggedSignal_some, nextLast, bareDirection_buy]
        exact Or.inr (Or.inl rfl)
    · refine ⟨fun habs => by simp [taggedSignal_some] at habs, fun s hs => ?_, fun _ => ?_⟩
      · rw [taggedSignal_some] at hs
        obtain rfl := (Option.some.inj hs)
        rw [bareDirection_sell]
        exact ⟨by simp [taggedSignal_some, nextLast, bareDirection_sell], Or.inr rfl⟩
      · simp only [taggedSignal_some, nextLast, bareDirection_sell]
        exact Or.inr (Or.inr rfl)
    · refine ⟨fun _ => by simp [taggedSignal_none, nextLast], fun s hs => ?_, fun hv => ?_⟩
      · simp [taggedSignal_none] at hs
      · simpa [taggedSignal_none, nextLast] using hv

/-- Witness for C7: on the increasing 21-sample history the first evaluation
emits `"BUY"` and the state becomes `some "BUY"`. -/
theorem signal_state_lifecycle_witness :
    (evaluate_signals clf0 ps21 none).2 = some (bareDirection "BUY") ∧
    (bareDirection "BUY" = "BUY" ∨ bareDirection "BUY" = "SELL") :=
  (signal_state_lifecycle.2 clf0 ps21 none).2.1 "BUY" (by
    norm_num [evaluate_signals, compute_moving_averages, rollingMeanLast,
      lastN, anomalousOf, is_anomalous, returnsOf, candidateSignal,
      taggedSignal, bareDirection, clf0, ps21, RISKY_TAG, emittedSignal]
    decide)

/-- C3 counterexample: on the increasing 21-sample history from the initial
state, the first evaluation emits `"BUY"` (and updates `last_signal` as a
side effect), so a second evaluation of the identical snapshot — with no
external mutation in between — returns `signal = None` instead: the two
`EvaluationResult`s differ. -/
theorem evaluate_not_idempotent :
    (evaluate_signals clf0 ps21 initial_last_signal).1 =
      some ⟨some "BUY", some 19, some (23 / 2 : ℚ), false⟩ ∧
    (evaluate_signals clf0 ps21
        (evaluate_signals clf0 ps21 initial_last_signal).2).1 =
      some ⟨none, some 19, some (23 / 2 : ℚ), false⟩ ∧
    (evaluate_signals clf0 ps21 (evaluate_signals clf0 ps21 initial_last_signal).2).1 ≠
      (evaluate_signals clf0 ps21 initial_last_signal).1 := by
  have h1 : (evaluate_signals clf0 ps21 initial_last_signal).1 =
      some ⟨some "BUY", some 19, some (23 / 2 : ℚ), false⟩ := by
    norm_num [evaluate_signals, compute_moving_averages, rollingMeanLast,
      lastN, anomalousOf, is_anomalous, returnsOf, candidateSignal,
      taggedSignal, bareDirection, clf0, ps21, RISKY_TAG, initial_last_signal]
    decide
  have h2 : (evaluate_signals clf0 ps21
      (evaluate_signals clf0 ps21 initial_last_signal).2).1 =
      some ⟨none, some 19, some (23 / 2 : ℚ), false⟩ := by
    norm_num [evaluate_signals, compute_moving_averages, rollingMeanLast,
      lastN, anomalousOf, is_anomalous, returnsOf, candidateSignal,
      taggedSignal, nextLast, bareDirection, clf0, ps21, RISKY_TAG,
      initial_last_signal]
    decide
  refine ⟨h1, h2, ?_⟩
  rw [h1, h2]
  simp

/-- C3 amended: `evaluate_signals` is a deterministic function of the
snapshot and the prior `last_signal`, but the first call updates
`last_signal` when it emits; hence re-evaluating the identical snapshot
yields the identical result precisely when the first evaluation emitted no
directional signal (otherwise the repeat is suppressed to `signal = None`). -/
theorem evaluate_repeat_iff_no_signal (clf : List ℚ → Bool) (ps : List ℚ)
    (st : Option String) :
    (evaluate_signals clf ps (evaluate_signals clf ps st).2).1 =
      (evaluate_signals clf ps st).1 ↔
    emittedSignal (evaluate_signals clf ps st).1 = none := by
  by_cases h : ps.length < 21
  · have he := evaluate_signals_of_lt clf ps st h
    simp [he, emittedSignal]
  · push_neg at h
    have he := evaluate_signals_of_ge clf ps st h
    rcases candidateSignal_cases (shortAvg ps) (longAvg ps) st with hc | hc | hc
    · have hb := (candidateSignal_eq_buy (shortAvg ps) (longAvg ps) st).1 hc
      have hc2 : candidateSignal (some (shortAvg ps)) (some (longAvg ps))
          (some "BUY") = none := by
        rw [candidateSignal_eq_none]
        exact ⟨fun hab => hab.2 rfl, fun hab => lt_asymm hb.1 hab.1⟩
      rw [he, hc]
      simp only [taggedSignal_some, nextLast, bareDirection_buy]
      rw [evaluate_signals_of_ge clf ps (some "BUY") h, hc2]
      simp [taggedSignal_none, taggedSignal_some, emittedSignal]
    · have hb := (candidateSignal_eq_sell (shortAvg ps) (longAvg ps) st).1 hc
      have hc2 : candidateSignal (some (shortAvg ps)) (some (longAvg ps))
          (some "SELL") = none := by
        rw [candidateSignal_eq_none]
        exact ⟨fun hab => lt_asymm hb.1 hab.1, fun hab => hab.2 rfl⟩
      rw [he, hc]
      simp only [taggedSignal_some, nextLast, bareDirection_sell]
      rw [evaluate_signals_of_ge clf ps (some "SELL") h, hc2]
      simp [taggedSignal_none, taggedSignal_some, emittedSignal]
    · rw [he, hc]
      simp only [taggedSignal_none, nextLast]
      rw [evaluate_signals_of_ge clf ps st h, hc]
      simp [taggedSignal_none, emittedSignal]

/-- C6: for every evaluation that returns a result, the anomaly flag is the
outlier check over the trailing 50 returns (and `False` when fewer than 50
returns exist); and whenever a directional signal is emitted, an anomaly
does not suppress it but appends the risky tag to the bare direction, while
a non-anomalous emission is the bare `"BUY"`/`"SELL"`. -/
theorem risky_qualifier_not_suppressed (clf : List ℚ → Bool) (ps : List ℚ)
    (st : Option String) (i : EvalResult) (s : String)
    (hi : (evaluate_signals clf ps st).1 = some i) (hs : i.signal = some s) :
    (i.anomalous = if 50 ≤ (returnsOf ps).length
        then is_anomalous clf (lastN 50 (returnsOf ps)) else false) ∧
    (i.anomalous = true →
      (bareDirection s = "BUY" ∨ bareDirection s = "SELL") ∧
      s = bareDirection s ++ RISKY_TAG) ∧
    (i.anomalous = false → s = "BUY" ∨ s = "SELL") := by
  by_cases h : ps.length < 21
  · rw [evaluate_signals_of_lt clf ps st h] at hi
    simp at hi
  · push_neg at h
    rw [evaluate_signals_of_ge clf ps st h] at hi
    obtain rfl := (Option.some.inj hi).symm
    have hs' : taggedSignal (candidateSignal (some (shortAvg ps)) (some (longAvg ps)) st)
        (anomalousOf clf (returnsOf ps)) = some s := hs
    rcases candidateSignal_cases (shortAvg ps) (longAvg ps) st with hc | hc | hc <;>
      rw [hc] at hs'
    · rw [taggedSignal_some] at hs'
      obtain rfl := Option.some.inj hs'
      refine ⟨rfl, fun ha => ?_, fun ha => ?_⟩
      · have ha' : anomalousOf clf (returnsOf ps) = true := ha
        simp [ha', bare_buy_tag]
      · have ha' : anomalousOf clf (returnsOf ps) = false := ha
        simp [ha', bare_buy_plain]
    · rw [taggedSignal_some] at hs'
      obtain rfl := Option.some.inj hs'
      refine ⟨rfl, fun ha => ?_, fun ha => ?_⟩
      · have ha' : anomalousOf clf (returnsOf ps) = true := ha
        simp [ha', bare_sell_tag]
      · have ha' : anomalousOf clf (returnsOf ps) = false := ha
        simp [ha', bare_sell_plain]
    · rw [taggedSignal_none] at hs'
      exact absurd hs' (by simp)

/-- Witness for C6: on the increasing 51-sample history with a classifier
that reports an outlier, the emitted signal is `"BUY"` with the risky tag
appended, not suppressed. -/
theorem risky_qualifier_not_suppressed_witness :
    ((⟨some ("BUY" ++ RISKY_TAG), some 49, some (83 / 2 : ℚ), true⟩ : EvalResult).anomalous =
      if 50 ≤ (returnsOf ps51).length
        then is_anomalous clfT (lastN 50 (returnsOf ps51)) else false) ∧
    ((⟨some ("BUY" ++ RISKY_TAG), some 49, some (83 / 2 : ℚ), true⟩ : EvalResult).anomalous = true →
      (bareDirection ("BUY" ++ RISKY_TAG) = "BUY" ∨
       bareDirection ("BUY" ++ RISKY_TAG) = "SELL") ∧
      "BUY" ++ RISKY_TAG = bareDirection ("BUY" ++ RISKY_TAG) ++ RISKY_TAG) ∧
    ((⟨some ("BUY" ++ RISKY_TAG), some 49, some (83 / 2 : ℚ), true⟩ : EvalResult).anomalous = false →
      "BUY" ++ RISKY_TAG = "BUY" ∨ "BUY" ++ RISKY_TAG = "SELL") :=
  risky_qualifier_not_suppressed clfT ps51 none
    ⟨some ("BUY" ++ RISKY_TAG), some 49, some (83 / 2 : ℚ), true⟩
    ("BUY" ++ RISKY_TAG)
    (by
      norm_num [evaluate_signals, compute_moving_averages, rollingMeanLast,
        lastN, anomalousOf, is_anomalous, returnsOf, candidateSignal,
        taggedSignal, bareDirection, clfT, ps51, RISKY_TAG]
      try decide)
    rfl

/-- C8: a tick whose fetch returned `None` leaves the whole poller state
(including the rolling buffer) unchanged and broadcasts nothing, and any run
of consecutive fetch failures leaves the state unchanged with an empty
broadcast list. -/
theorem fetch_failure_skips_tick (clf : List ℚ → Bool) (s : PollerState)
    (ts : ℚ) (outs : List (Option ℚ × ℚ)) (h : ∀ o ∈ outs, o.1 = none) :
    tick clf s none ts = (s, none) ∧
    ticks clf s outs = (s, []) ∧
    (ticks clf s outs).1.prices = s.prices := by
  have hall : ∀ outs : List (Option ℚ × ℚ), (∀ o ∈ outs, o.1 = none) →
      ticks clf s outs = (s, []) := by
    intro outs
    induction outs with
    | nil => intro _; rfl
    | cons o rest ih =>
        intro hnone
        obtain ⟨f, t⟩ := o
        have hf : f = none := hnone (f, t) (List.mem_cons_self _ _)
        subst hf
        have hr := ih (fun o ho => hnone o (List.mem_cons_of_mem _ ho))
        simp [ticks, tick, hr]
  exact ⟨rfl, hall outs h, by rw [hall outs h]⟩

/-- Witness for C8: three consecutive failed fetches from a 3-sample
state. -/
theorem fetch_failure_skips_tick_witness :
    tick clf0 ⟨ps3, [0, 1, 2], none⟩ none 15 = (⟨ps3, [0, 1, 2], none⟩, none) ∧
    ticks clf0 ⟨ps3, [0, 1, 2], none⟩ [(none, 15), (none, 20), (none, 25)] =
      (⟨ps3, [0, 1, 2], none⟩, []) ∧
    (ticks clf0 ⟨ps3, [0, 1, 2], none⟩
        [(none, 15), (none, 20), (none, 25)]).1.prices =
      (⟨ps3, [0, 1, 2], none⟩ : PollerState).prices :=
  fetch_failure_skips_tick clf0 ⟨ps3, [0, 1, 2], none⟩ 15
    [(none, 15), (none, 20), (none, 25)] (by simp)

/-- C9 counterexample: a well-formed HTTP response whose `price` field
parses to `-5` makes `fetch_price` return `-5`, which is neither `None` nor
positive — the fetch does not validate positivity (or finiteness) of the
parsed value, so the claim as stated is false. -/
theorem fetch_price_not_always_positive :
    ¬ (∀ o : FetchOutcome, fetch_price o = none ∨
        ∃ q : ℚ, fetch_price o = some q ∧ 0 < q) := by
  intro hall
  rcases hall (.response (some (-5))) with hnone | ⟨q, hq, hqpos⟩
  · exact absurd hnone (by simp [fetch_price])
  · have hq5 : some (-5 : ℚ) = some q := hq
    obtain rfl := (Option.some.inj hq5).symm
    norm_num at hqpos

/-- C9 amended: for every outcome of the underlying HTTP request,
`fetch_price` either returns `None` (on any transport, status, or parse
failure — it never raises) or returns exactly the number parsed from the
response, unvalidated. -/
theorem fetch_price_total (o : FetchOutcome) :
    fetch_price o = none ∨
    ∃ q : ℚ, o = .response (some q) ∧ fetch_price o = some q := by
  cases o with
  | failure => exact Or.inl rfl
  | response p =>
      cases p with
      | none => exact Or.inl rfl
      | some q => exact Or.inr ⟨q, rfl, rfl⟩

end BitcoinPriceDetector
